import Mathlib

/-!
Verification development for the price-history store and its derived
analytics: a shallow embedding of the store operations of `database.py`
(class PriceDatabase) and the analytics of `advanced_analytics.py`
(class AdvancedAnalytics) and `discount_tracker.py` (class DiscountTracker).

Modelling conventions:
* prices are rationals (the Python floats are only ever combined with
  field operations here, which the claims evaluate on exact inputs);
* `recorded_at` timestamps are integers;
* a SQLite result set produced by ORDER BY recorded_at ASC is modelled by a
  stable insertion sort of the stored rows;
* a Python dict result carrying an error key is modelled as `none`;
* the possibility of a storage-level exception inside a try block
  (sqlite3 errors: disk full, corruption) is modelled by a boolean oracle
  argument `writeOk`: `true` means the writes succeed, `false` means the
  exception handler runs (rollback, so the state is unchanged);
* a floating-point NaN (pandas sample std of a single value) is modelled
  as `none`;
* a numpy standard deviation is carried as its square (the population
  variance), which is exact in ℚ; the theorems relate the classification
  thresholds back to the standard deviation through `Real.sqrt`.
-/

namespace WebScraper

/-- Binary minimum on ℚ, written with an explicit comparison so that it
evaluates by kernel reduction (it equals Mathlib's `min`, see `qmin_eq`). -/
def qmin (a b : ℚ) : ℚ := if a ≤ b then a else b

/-- Binary maximum on ℚ with an explicit comparison (equals `max`). -/
def qmax (a b : ℚ) : ℚ := if a ≤ b then b else a

/-- Absolute value on ℚ with an explicit comparison (equals `|·|`). -/
def qabs (a : ℚ) : ℚ := if a < 0 then -a else a

/-- Minimum of a list of rationals; `0` on `[]` (numpy raises there, and every
use below is guarded by a nonemptiness check). -/
def minD : List ℚ → ℚ
  | [] => 0
  | x :: xs => xs.foldl qmin x

/-- Maximum of a list of rationals; `0` on `[]`. -/
def maxD : List ℚ → ℚ
  | [] => 0
  | x :: xs => xs.foldl qmax x

/-- Row of the products table: products(id, name UNIQUE, url, created_at,
updated_at). `created_at` is not read by any verified operation and is
omitted. -/
structure Product where
  id : Nat
  name : String
  url : String
  updatedAt : Int
deriving DecidableEq

/-- Row of the price_history table: price_history(id, product_id, price,
recorded_at). -/
structure PriceRecord where
  productId : Nat
  price : ℚ
  recordedAt : Int
deriving DecidableEq

/-- The SQLite database state: both tables plus the AUTOINCREMENT counter of
the products table. -/
structure DB where
  products : List Product
  priceHistory : List PriceRecord
  nextId : Nat
deriving DecidableEq

/-- A freshly initialised database (init_database creates empty tables). -/
def emptyDB : DB := { products := [], priceHistory := [], nextId := 1 }

/-- PriceDatabase.get_product_id: SELECT id FROM products WHERE name = ?,
taking the first matching row. -/
def get_product_id (db : DB) (name : String) : Option Nat :=
  (db.products.find? (fun p => p.name == name)).map (fun p => p.id)

/-- PriceDatabase.add_product: INSERT OR IGNORE INTO products, then
SELECT id FROM products WHERE name = ?. The insert is ignored when a row
with the same name already exists. -/
def add_product (db : DB) (name url : String) (now : Int) : DB × Option Nat :=
  let db' : DB :=
    if db.products.any (fun p => p.name == name) then db
    else { db with
           products := db.products ++
             [{ id := db.nextId, name := name, url := url, updatedAt := now }],
           nextId := db.nextId + 1 }
  (db', get_product_id db' name)

/-- PriceDatabase.add_price_record: looks the product up by name; if absent,
prints a message and returns False without touching the tables. Otherwise it
INSERTs the price row and UPDATEs the product's updated_at inside a
try/except: on a storage error (`writeOk = false`) it rolls back and returns
False; on success it commits and returns True. -/
def add_price_record (db : DB) (name : String) (price : ℚ) (t : Int)
    (writeOk : Bool) : DB × Bool :=
  match get_product_id db name with
  | none => (db, false)
  | some pid =>
    if writeOk then
      ({ db with
         priceHistory := db.priceHistory ++
           [{ productId := pid, price := price, recordedAt := t }],
         products := db.products.map
           (fun p => if p.id == pid then { p with updatedAt := t } else p) },
       true)
    else (db, false)

/-- PriceDatabase.delete_product: returns False if the name is unknown;
otherwise DELETEs the price history then the product inside a try/except
(on a storage error it rolls back and returns False). -/
def delete_product (db : DB) (name : String) (writeOk : Bool) : DB × Bool :=
  match get_product_id db name with
  | none => (db, false)
  | some pid =>
    if writeOk then
      ({ db with
         priceHistory := db.priceHistory.filter (fun r => r.productId != pid),
         products := db.products.filter (fun p => p.id != pid) },
       true)
    else (db, false)

/-- Comparison used by ORDER BY recorded_at ASC. -/
def recLE (a b : PriceRecord) : Prop := a.recordedAt ≤ b.recordedAt

instance : DecidableRel recLE :=
  fun a b => inferInstanceAs (Decidable (a.recordedAt ≤ b.recordedAt))

instance : IsTotal PriceRecord recLE := ⟨fun a b => Int.le_total a.recordedAt b.recordedAt⟩

instance : IsTrans PriceRecord recLE := ⟨fun _ _ _ hab hbc => le_trans hab hbc⟩

/-- PriceDatabase.get_price_history: empty frame if the product is unknown,
else SELECT DATE(recorded_at), TIME(recorded_at), price ... ORDER BY
recorded_at ASC, with a raw LIMIT appended only when the Python value
`limit` is truthy (so limit=0 means no limit, and SQLite treats a negative
LIMIT as unlimited). A row is modelled as the pair (recorded_at, price). -/
def get_price_history (db : DB) (name : String) (limit : Option Int) :
    List (Int × ℚ) :=
  match get_product_id db name with
  | none => []
  | some pid =>
    let rows :=
      (List.insertionSort recLE
        (db.priceHistory.filter (fun r => r.productId == pid))).map
        (fun r => (r.recordedAt, r.price))
    match limit with
    | none => rows
    | some n => if n ≤ 0 then rows else rows.take n.toNat

/-- Mean of a list of rationals (0 on the empty list, where 0/0 = 0 in ℚ). -/
def mean (l : List ℚ) : ℚ := l.sum / l.length

/-- Population variance, the square of numpy's np.std / the value of
np.var (ddof=0). -/
def popVar (l : List ℚ) : ℚ :=
  (l.map (fun x => (x - mean l) ^ 2)).sum / l.length

/-- Sample variance, the square of the pandas Series.std default (ddof=1).
For a single element the divisor is zero; the caller models that NaN
separately. -/
def sampleVar (l : List ℚ) : ℚ :=
  (l.map (fun x => (x - mean l) ^ 2)).sum / ((l.length : ℚ) - 1)

/-- The dict built by PriceDatabase.get_statistics (the fields the verified
claims read; the two date fields are omitted). `stdSq` carries the square of
the pandas sample standard deviation, `none` when that value is NaN
(exactly one row: ddof=1 divides by zero). -/
structure StatsOut where
  count : Nat
  minPrice : ℚ
  maxPrice : ℚ
  avgPrice : ℚ
  stdSq : Option ℚ
  firstPrice : ℚ
  lastPrice : ℚ
deriving DecidableEq

/-- PriceDatabase.get_statistics: empty dict (modelled `none`) when the
history frame is empty, else count/min/max/mean/std/first/last over the
ascending history. -/
def get_statistics (db : DB) (name : String) : Option StatsOut :=
  let df := get_price_history db name none
  if df = [] then none
  else
    let prices := df.map (fun r => r.2)
    some { count := df.length
           minPrice := minD prices
           maxPrice := maxD prices
           avgPrice := mean prices
           stdSq := if df.length < 2 then none else some (sampleVar prices)
           firstPrice := prices.headD 0
           lastPrice := prices.getLastD 0 }

/-- np.cumsum starting from a running total `acc` (no leading zero: the first
output is `acc` plus the first element). -/
def cumsumFrom (acc : ℚ) : List ℚ → List ℚ
  | [] => []
  | p :: ps => (acc + p) :: cumsumFrom (acc + p) ps

/-- np.cumsum of a price array. -/
def cumsum (l : List ℚ) : List ℚ := cumsumFrom 0 l

/-- np.maximum.accumulate continued with running maximum `m`. -/
def runMaxFrom (m : ℚ) : List ℚ → List ℚ
  | [] => []
  | x :: xs => qmax m x :: runMaxFrom (qmax m x) xs

/-- np.maximum.accumulate: elementwise running maximum. -/
def runningMax : List ℚ → List ℚ
  | [] => []
  | x :: xs => x :: runMaxFrom x xs

/-- AdvancedAnalytics._calculate_max_drawdown: cumulative sum, its running
maximum, the pointwise difference, then the absolute value of the minimum if
negative else 0 (np.min of an empty array raises; all uses are on nonempty
price arrays). -/
def calculateMaxDrawdown (prices : List ℚ) : ℚ :=
  let c := cumsum prices
  let drawdown := List.zipWith (fun a b => a - b) c (runningMax c)
  let m := minD drawdown
  if m < 0 then qabs m else 0

/-- The i-th entry of the cumulative-sum series, written directly as the sum
of the first i+1 prices. -/
def cumAt (l : List ℚ) (i : Nat) : ℚ := (l.take (i + 1)).sum

/-- The running maximum at index i of the cumulative-sum series, written
directly as the maximum over j ≤ i. -/
def runMaxAt (l : List ℚ) (i : Nat) : ℚ :=
  maxD ((List.range (i + 1)).map (cumAt l))

/-- The drawdown reference series exactly as the specification words it:
cumulative sum of prices minus its running maximum, per index. -/
def specSeries (l : List ℚ) : List ℚ :=
  (List.range l.length).map (fun i => cumAt l i - runMaxAt l i)

/-- Specification-side maximum drawdown: the absolute value of the most
negative entry of `specSeries`, or 0 if no entry is negative. -/
def specMaxDrawdown (l : List ℚ) : ℚ :=
  if (specSeries l).any (fun x => decide (x < 0)) then |minD (specSeries l)|
  else 0

/-- Consecutive simple percentage returns: np.diff(prices) / prices of the
first n-1 points, times 100. -/
def pctReturns (prices : List ℚ) : List ℚ :=
  List.zipWith (fun prev cur => (cur - prev) / prev * 100) prices prices.tail

/-- The volatility classification of calculate_volatility, acting on the
square of the standard deviation: std < 2 iff var < 4 and std < 5 iff
var < 25, since squaring is strictly monotone on the nonnegatives and the
variance is nonnegative. -/
def classifyVol (varR : ℚ) : String :=
  if varR < 4 then "Low" else if varR < 25 then "Medium" else "High"

/-- The dict built by AdvancedAnalytics.calculate_volatility (the fields the
verified claims read). `volatilitySq` is the square of the reported
volatility (= np.std of the returns), and equals `variance` (np.var of the
returns). -/
structure VolOut where
  volatilitySq : ℚ
  variance : ℚ
  maxDrawdown : ℚ
  level : String
  dataPoints : Nat
deriving DecidableEq

/-- AdvancedAnalytics.calculate_volatility: error dict (modelled `none`) when
the history is empty or fewer than 2 observations survive the
recorded_at >= now - daysBack filter; otherwise the volatility metrics of
the consecutive percentage returns of the filtered prices. -/
def calculate_volatility (db : DB) (name : String) (now daysBack : Int) :
    Option VolOut :=
  let df := get_price_history db name none
  if df = [] then none
  else
    let cutoff := now - daysBack
    let filtered := df.filter (fun r => cutoff ≤ r.1)
    if filtered.length < 2 then none
    else
      let prices := filtered.map (fun r => r.2)
      let rets := pctReturns prices
      some { volatilitySq := popVar rets
             variance := popVar rets
             maxDrawdown := calculateMaxDrawdown prices
             level := classifyVol (popVar rets)
             dataPoints := filtered.length }

/-- Slope of np.polyfit(x, y, 1) for x = 0, 1, ..., n-1: the ordinary
least-squares line, in closed normal-equation form
(n·Σxy − Σx·Σy) / (n·Σx² − (Σx)²). -/
def lstsqSlope (ys : List ℚ) : ℚ :=
  let n : ℚ := ys.length
  let xs : List ℚ := (List.range ys.length).map (fun i => (i : ℚ))
  (n * (List.zipWith (fun x y => x * y) xs ys).sum - xs.sum * ys.sum) /
    (n * (xs.map (fun x => x ^ 2)).sum - xs.sum ^ 2)

/-- The confidence classification of predict_price, acting on the square of
the standard deviation of the recent prices. The source compares
np.std(recent) against 0.1·current and 0.05·current; since the std is
nonnegative, a negative current price always compares below the std
(branch one), and for a nonnegative current price the comparisons square to
var > current²/100 and var > current²/400. -/
def classifyConfidence (varR current : ℚ) : String :=
  if current < 0 then "low"
  else if 1 / 100 * current ^ 2 < varR then "low"
  else if 1 / 400 * current ^ 2 < varR then "medium"
  else "high"

/-- The dict built by AdvancedAnalytics.predict_price (the fields the
verified claims read; the projected price list, its dates and the percent
change are omitted). `volatilitySq` is the square of the reported
volatility, the np.std of the last min(30, n) prices. -/
structure PredictOut where
  slope : ℚ
  trend : String
  confidence : String
  currentPrice : ℚ
  volatilitySq : ℚ
deriving DecidableEq

/-- AdvancedAnalytics.predict_price with the default method 'linear' (the
optional scikit-learn path differs only in fitting on a train split):
error dict (modelled `none`) on an empty history or fewer than 10
observations, else the degree-1 least-squares fit of price against
observation index, the trend sign of its slope, and the confidence banding
of the recent-price volatility against the current price. The source
re-sorts the already ascending frame by its date column, a stable no-op
modelled by the identity. -/
def predict_price (db : DB) (name : String) : Option PredictOut :=
  let df := get_price_history db name none
  if df = [] then none
  else if df.length < 10 then none
  else
    let prices := df.map (fun r => r.2)
    let slope := lstsqSlope prices
    let recent := prices.drop (prices.length - min 30 prices.length)
    let varR := popVar recent
    let current := prices.getLastD 0
    some { slope := slope
           trend := if 0 < slope then "increasing" else "decreasing"
           confidence := classifyConfidence varR current
           currentPrice := current
           volatilitySq := varR }

/-- One price-drop event of DiscountTracker.get_price_drops. -/
structure DropEvent where
  date : Int
  previousPrice : ℚ
  newPrice : ℚ
  dropAmount : ℚ
  dropPercent : ℚ
deriving DecidableEq

/-- The loop body of get_price_drops: one event for each consecutive pair of
rows whose second price is strictly below the first. -/
def dropEvents (rows : List (Int × ℚ)) : List DropEvent :=
  (List.zip rows rows.tail).filterMap
    (fun pc =>
      if pc.2.2 < pc.1.2 then
        some { date := pc.2.1
               previousPrice := pc.1.2
               newPrice := pc.2.2
               dropAmount := pc.1.2 - pc.2.2
               dropPercent := (pc.1.2 - pc.2.2) / pc.1.2 * 100 }
      else none)

/-- Comparison used by sorted(..., key=drop_amount, reverse=True):
descending by drop amount (Python's sort is stable; so is the insertion
sort modelling it). -/
def dropGE (a b : DropEvent) : Prop := b.dropAmount ≤ a.dropAmount

instance : DecidableRel dropGE :=
  fun a b => inferInstanceAs (Decidable (b.dropAmount ≤ a.dropAmount))

instance : IsTotal DropEvent dropGE := ⟨fun a b => le_total b.dropAmount a.dropAmount⟩

instance : IsTrans DropEvent dropGE := ⟨fun _ _ _ hab hbc => le_trans hbc hab⟩

/-- DiscountTracker.get_price_drops: empty list when fewer than 2
observations exist at all; otherwise the consecutive-pair drop events of the
rows with recorded_at >= now - daysBack — except that when no row passes the
filter the source falls back to the FULL history — sorted descending by
drop amount. The history frame always carries a date column here, so the
tail(days_back) branch of the source is unreachable. -/
def get_price_drops (db : DB) (name : String) (now daysBack : Int) :
    List DropEvent :=
  let df := get_price_history db name none
  if df.length < 2 then []
  else
    let cutoff := now - daysBack
    let filtered := df.filter (fun r => cutoff ≤ r.1)
    let dff := if filtered = [] then df else filtered
    List.insertionSort dropGE (dropEvents dff)

/-- A registered product used by the concrete check databases. -/
def prodW : Product := { id := 1, name := "Widget", url := "http://shop/w", updatedAt := 0 }

/-- A database holding one product and no observations. -/
def dbW : DB := { products := [prodW], priceHistory := [], nextId := 2 }

/-- A database holding one product and exactly one observation (price 100 at
time 5). -/
def dbW1 : DB :=
  { products := [prodW]
    priceHistory := [{ productId := 1, price := 100, recordedAt := 5 }]
    nextId := 2 }

/-- A database holding one product and two old observations (price 100 at
time 1, price 90 at time 2) — both outside a window cutoff of 70. -/
def dbW2 : DB :=
  { products := [prodW]
    priceHistory := [{ productId := 1, price := 100, recordedAt := 1 },
                     { productId := 1, price := 90, recordedAt := 2 }]
    nextId := 2 }

/-- A database holding one product and two recent observations (price 100 at
time 95, price 90 at time 96) — both inside a window cutoff of 70. -/
def dbW3 : DB :=
  { products := [prodW]
    priceHistory := [{ productId := 1, price := 100, recordedAt := 95 },
                     { productId := 1, price := 90, recordedAt := 96 }]
    nextId := 2 }

/-! Bridging lemmas between the executable comparisons and the order
vocabulary of Mathlib. -/

theorem qmin_eq (a b : ℚ) : qmin a b = min a b := by
  rw [qmin, min_def]

theorem qmax_eq (a b : ℚ) : qmax a b = max a b := by
  rw [qmax, max_def]

theorem qabs_eq (a : ℚ) : qabs a = |a| := by
  rcases lt_or_le a 0 with h | h
  · rw [qabs, if_pos h, abs_of_neg h]
  · rw [qabs, if_neg (not_lt.mpr h), abs_of_nonneg h]

/-! Claim C1: appendObservation on an unregistered name. -/

/-- C1 counterexample: add_price_record on a never-registered name does not
auto-create the product — called on the fresh database it returns the
failure value and leaves the database unchanged (no product row appears),
and its interface offers no way to supply a URL at observation time. -/
theorem addPriceRecord_no_autocreate_cex :
    (add_price_record emptyDB "Widget" 100 5 true).2 = false ∧
    (add_price_record emptyDB "Widget" 100 5 true).1 = emptyDB := ⟨rfl, rfl⟩

/-- C1 (amended): for every product name with no product row on record,
add_price_record fails cleanly — it returns False, stores no observation
and creates no product, leaving the database unchanged; there is no URL
parameter and no auto-creation, so add_product must be called first. -/
theorem addPriceRecord_unregistered_fails (db : DB) (name : String) (price : ℚ)
    (t : Int) (writeOk : Bool) (h : get_product_id db name = none) :
    add_price_record db name price t writeOk = (db, false) := by
  unfold add_price_record
  rw [h]

/-- C1 witness: the amended theorem applied to the fresh database. -/
theorem addPriceRecord_unregistered_fails_witness :
    add_price_record emptyDB "Gadget" 50 0 true = (emptyDB, false) :=
  addPriceRecord_unregistered_fails emptyDB "Gadget" 50 0 true rfl

/-! Claim C6: storage failures and the values returned for them. -/

/-- C6 counterexample: a failed write inside add_price_record is reported as
the plain boolean False — exactly the value returned for an unknown product
— and a failed delete_product likewise returns plain False; no distinct
StorageError kind exists in either result. -/
theorem storageError_masked_cex :
    add_price_record dbW "Widget" 100 5 false = (dbW, false) ∧
    add_price_record dbW "Missing" 100 5 true = (dbW, false) ∧
    delete_product dbW "Widget" false = (dbW, false) := ⟨rfl, rfl, rfl⟩

/-- C6 (amended): on a storage I/O failure the Price Store write and delete
operations swallow the error: add_price_record catches the exception, rolls
back and returns the plain boolean False (the same default value it returns
for an unknown product), and delete_product does the same — no distinct
StorageError kind is propagated to the caller. -/
theorem storageFailure_returns_false (db : DB) (name : String) (price : ℚ)
    (t : Int) :
    add_price_record db name price t false = (db, false) ∧
    delete_product db name false = (db, false) := by
  constructor
  · unfold add_price_record
    cases get_product_id db name <;> simp
  · unfold delete_product
    cases get_product_id db name <;> simp

/-! Claim C10: idempotent product registration. -/

theorem addProduct_of_mem {db : DB} {name : String} (url : String) (t : Int)
    (h : db.products.any (fun p => p.name == name) = true) :
    add_product db name url t = (db, get_product_id db name) := by
  simp only [add_product]
  rw [if_pos h]

theorem addProduct_has_name (db : DB) (name url : String) (t : Int) :
    ((add_product db name url t).1.products.any (fun p => p.name == name)) = true := by
  by_cases h : db.products.any (fun p => p.name == name) = true
  · rw [addProduct_of_mem url t h]
    exact h
  · unfold add_product
    rw [if_neg h]
    simp

theorem addProduct_snd (db : DB) (name url : String) (t : Int) :
    (add_product db name url t).2 =
      get_product_id (add_product db name url t).1 name := rfl

theorem get_product_id_isSome {db : DB} {name : String}
    (h : db.products.any (fun p => p.name == name) = true) :
    (get_product_id db name).isSome = true := by
  unfold get_product_id
  cases hf : db.products.find? (fun p => p.name == name) with
  | none =>
    obtain ⟨x, hx, hpx⟩ := List.any_eq_true.mp h
    have := List.find?_eq_none.mp hf x hx
    simp_all
  | some p => rfl

/-- C10: add_product is idempotent on the product name — a second call with
the same name (any URL, any time) leaves the database unchanged (in
particular no second product row for that name is created) and returns the
same product id, and the id returned is an actual id, not an error. -/
theorem addProduct_idempotent (db : DB) (name url1 url2 : String) (t1 t2 : Int) :
    (add_product (add_product db name url1 t1).1 name url2 t2).1 =
        (add_product db name url1 t1).1 ∧
    (add_product (add_product db name url1 t1).1 name url2 t2).2 =
        (add_product db name url1 t1).2 ∧
    ((add_product db name url1 t1).2).isSome = true := by
  have hmem := addProduct_has_name db name url1 t1
  have h2 := addProduct_of_mem url2 t2 hmem
  refine ⟨by rw [h2], ?_, ?_⟩
  · rw [h2, addProduct_snd db name url1 t1]
  · rw [addProduct_snd db name url1 t1]
    exact get_product_id_isSome hmem

/-! Claim C7: history ordering and the LIMIT truncation direction. -/

/-- C7 counterexample: with limit 0 — a limit smaller than the total count,
but falsy in Python — get_price_history returns the full one-row history
instead of the oldest zero rows. -/
theorem history_limit_zero_cex :
    get_price_history dbW1 "Widget" (some 0) ≠
      (get_price_history dbW1 "Widget" none).take (Int.toNat 0) ∧
    get_price_history dbW1 "Widget" (some 0) = [(5, 100)] := by
  constructor <;> decide

/-- C7 (amended): history(name) always returns the observations in
non-decreasing recorded_at order, for every database state and limit; and
for every POSITIVE limit n the result is the oldest n observations — the
ascending full history truncated from the front — still ascending. A limit
of 0 (falsy in Python) and a negative limit (unlimited for SQLite) instead
return the full history. -/
theorem history_sorted_take (db : DB) (name : String) :
    (∀ limit, List.Pairwise (fun a b : Int × ℚ => a.1 ≤ b.1)
        (get_price_history db name limit)) ∧
    (∀ n : Int, 1 ≤ n →
      get_price_history db name (some n) =
        (get_price_history db name none).take n.toNat) := by
  constructor
  · intro limit
    unfold get_price_history
    cases get_product_id db name with
    | none => exact List.Pairwise.nil
    | some pid =>
      have hs : List.Pairwise recLE
          (List.insertionSort recLE
            (db.priceHistory.filter (fun r => r.productId == pid))) :=
        List.sorted_insertionSort recLE _
      have hp : List.Pairwise (fun a b : Int × ℚ => a.1 ≤ b.1)
          ((List.insertionSort recLE
            (db.priceHistory.filter (fun r => r.productId == pid))).map
              (fun r => (r.recordedAt, r.price))) := by
        rw [List.pairwise_map]
        exact hs
      cases limit with
      | none => exact hp
      | some n =>
        by_cases hn : n ≤ 0
        · simpa [hn] using hp
        · simpa [hn] using hp.sublist (List.take_sublist _ _)
  · intro n hn
    unfold get_price_history
    cases get_product_id db name with
    | none => simp
    | some pid =>
      have hn' : ¬ n ≤ 0 := by omega
      simp [hn']

/-- C7 witness: the amended truncation equation at a concrete database and
the concrete positive limit 1. -/
theorem history_take_witness :
    get_price_history dbW1 "Widget" (some 1) =
      (get_price_history dbW1 "Widget" none).take (Int.toNat 1) :=
  (history_sorted_take dbW1 "Widget").2 1 (by decide)

/-! Claim C2: statistics on empty and singleton histories. -/

/-- C2 evaluation at the failing input: on a product with no observations
get_statistics returns the explicit empty marker, and on a product with
exactly one observation at price 100 it returns count 1 and
min = max = mean = 100 — but its std field is the pandas sample standard
deviation of a single value, which is NaN (modelled none), not 0. -/
theorem statistics_singleton_nan :
    get_statistics dbW "Widget" = none ∧
    get_statistics dbW1 "Widget" =
      some { count := 1, minPrice := 100, maxPrice := 100, avgPrice := 100,
             stdSq := none, firstPrice := 100, lastPrice := 100 } := by
  constructor
  · rfl
  · have hdf : get_price_history dbW1 "Widget" none = [(5, (100 : ℚ))] := rfl
    unfold get_statistics
    rw [hdf]
    norm_num [mean, minD, maxD]

/-! Drawdown: pointwise characterisation of the cumulative-sum and
running-maximum scans, used for claims C3 and C4. -/

theorem cumsumFrom_length (a : ℚ) (l : List ℚ) :
    (cumsumFrom a l).length = l.length := by
  induction l generalizing a with
  | nil => rfl
  | cons p ps ih => simp [cumsumFrom, ih]

theorem cumsumFrom_eq (l : List ℚ) : ∀ a : ℚ,
    cumsumFrom a l =
      (List.range l.length).map (fun i => a + (l.take (i + 1)).sum) := by
  induction l with
  | nil => intro a; rfl
  | cons p ps ih =>
    intro a
    rw [cumsumFrom, ih (a + p), List.length_cons, List.range_succ_eq_map,
      List.map_cons, List.map_map]
    congr 1
    · simp
    · apply List.map_congr_left
      intro i _
      simp only [Function.comp_apply, Nat.succ_eq_add_one, List.take_succ_cons,
        List.sum_cons]
      ring

theorem cumsum_eq (l : List ℚ) :
    cumsum l = (List.range l.length).map (fun i => cumAt l i) := by
  rw [cumsum, cumsumFrom_eq]
  apply List.map_congr_left
  intro i _
  simp [cumAt]

theorem qmax_eq_fun : qmax = fun a b : ℚ => max a b := by
  funext a b
  exact qmax_eq a b

theorem qmin_eq_fun : qmin = fun a b : ℚ => min a b := by
  funext a b
  exact qmin_eq a b

theorem foldl_max_cons (t : List ℚ) : ∀ x y : ℚ,
    t.foldl max (max x y) = max x (t.foldl max y) := by
  induction t with
  | nil => intro x y; rfl
  | cons z t ih =>
    intro x y
    rw [List.foldl_cons, List.foldl_cons, max_assoc, ih]

theorem foldl_min_cons (t : List ℚ) : ∀ x y : ℚ,
    t.foldl min (min x y) = min x (t.foldl min y) := by
  induction t with
  | nil => intro x y; rfl
  | cons z t ih =>
    intro x y
    rw [List.foldl_cons, List.foldl_cons, min_assoc, ih]

theorem maxD_cons (x z : ℚ) (t : List ℚ) :
    maxD (x :: z :: t) = max x (maxD (z :: t)) := by
  show (z :: t).foldl qmax x = max x (t.foldl qmax z)
  rw [qmax_eq_fun, List.foldl_cons]
  exact foldl_max_cons t x z

theorem minD_cons (x z : ℚ) (t : List ℚ) :
    minD (x :: z :: t) = min x (minD (z :: t)) := by
  show (z :: t).foldl qmin x = min x (t.foldl qmin z)
  rw [qmin_eq_fun, List.foldl_cons]
  exact foldl_min_cons t x z

theorem minD_le (l : List ℚ) (x : ℚ) (hx : x ∈ l) : minD l ≤ x := by
  induction l with
  | nil => cases hx
  | cons a t ih =>
    cases t with
    | nil =>
      rw [List.mem_singleton.mp hx]
      exact le_refl _
    | cons b t' =>
      rw [minD_cons]
      rcases List.mem_cons.mp hx with h | h
      · rw [h]
        exact min_le_left _ _
      · exact le_trans (min_le_right _ _) (ih h)

theorem minD_mem (l : List ℚ) (h : l ≠ []) : minD l ∈ l := by
  induction l with
  | nil => exact absurd rfl h
  | cons a t ih =>
    cases t with
    | nil => exact List.mem_singleton.mpr rfl
    | cons b t' =>
      rw [minD_cons]
      rcases le_total a (minD (b :: t')) with h' | h'
      · rw [min_eq_left h']
        exact List.mem_cons_self _ _
      · rw [min_eq_right h']
        exact List.mem_cons_of_mem _ (ih (by simp))

theorem maxD_take_cons (y : ℚ) (ys : List ℚ) (i : Nat) (hlt : i < ys.length) :
    maxD ((y :: ys).take (i + 1 + 1)) = max y (maxD (ys.take (i + 1))) := by
  have hne : ys.take (i + 1) ≠ [] := by
    apply List.ne_nil_of_length_pos
    rw [List.length_take]
    omega
  cases htk : ys.take (i + 1) with
  | nil => exact absurd htk hne
  | cons z t' =>
    rw [List.take_succ_cons, htk, maxD_cons]

theorem runMaxFrom_eq (l : List ℚ) : ∀ m : ℚ,
    runMaxFrom m l =
      (List.range l.length).map (fun i => max m (maxD (l.take (i + 1)))) := by
  induction l with
  | nil => intro m; rfl
  | cons y ys ih =>
    intro m
    rw [runMaxFrom, ih (qmax m y), qmax_eq, List.length_cons,
      List.range_succ_eq_map, List.map_cons, List.map_map]
    congr 1
    apply List.map_congr_left
    intro i hi
    have hlt : i < ys.length := List.mem_range.mp hi
    show max (max m y) (maxD (ys.take (i + 1))) =
      max m (maxD ((y :: ys).take (i + 1 + 1)))
    rw [maxD_take_cons y ys i hlt, max_assoc]

theorem runningMax_eq (l : List ℚ) :
    runningMax l =
      (List.range l.length).map (fun i => maxD (l.take (i + 1))) := by
  cases l with
  | nil => rfl
  | cons x xs =>
    rw [runningMax, runMaxFrom_eq, List.length_cons, List.range_succ_eq_map,
      List.map_cons, List.map_map]
    congr 1
    apply List.map_congr_left
    intro i hi
    have hlt : i < xs.length := List.mem_range.mp hi
    show max x (maxD (xs.take (i + 1))) = maxD ((x :: xs).take (i + 1 + 1))
    rw [maxD_take_cons x xs i hlt]

theorem take_cumsum (l : List ℚ) (i : Nat) (h : i < l.length) :
    (cumsum l).take (i + 1) = (List.range (i + 1)).map (cumAt l) := by
  rw [cumsum_eq, ← List.map_take, List.take_range, Nat.min_eq_left (by omega)]

theorem runningMax_cumsum (l : List ℚ) :
    runningMax (cumsum l) = (List.range l.length).map (fun i => runMaxAt l i) := by
  rw [runningMax_eq]
  have hlen : (cumsum l).length = l.length := by rw [cumsum, cumsumFrom_length]
  rw [hlen]
  apply List.map_congr_left
  intro i hi
  rw [take_cumsum l i (List.mem_range.mp hi)]
  rfl

theorem zipWith_sub_map {γ : Type} (r : List γ) (f g : γ → ℚ) :
    List.zipWith (fun a b => a - b) (r.map f) (r.map g) =
      r.map (fun i => f i - g i) := by
  induction r with
  | nil => rfl
  | cons x t ih => simp [ih]

theorem drawdown_series_eq (l : List ℚ) :
    List.zipWith (fun a b => a - b) (cumsum l) (runningMax (cumsum l)) =
      specSeries l := by
  rw [runningMax_cumsum, cumsum_eq, zipWith_sub_map]
  rfl

theorem minD_neg_iff (l : List ℚ) (h : l ≠ []) :
    (l.any (fun x => decide (x < 0)) = true) ↔ minD l < 0 := by
  constructor
  · intro ha
    obtain ⟨x, hx, hxlt⟩ := List.any_eq_true.mp ha
    exact lt_of_le_of_lt (minD_le l x hx) (of_decide_eq_true hxlt)
  · intro hm
    exact List.any_eq_true.mpr ⟨minD l, minD_mem l h, decide_eq_true hm⟩

theorem runMaxFrom_cumsumFrom (l : List ℚ) :
    ∀ m a : ℚ, (∀ p ∈ l, 0 ≤ p) → m ≤ a →
      runMaxFrom m (cumsumFrom a l) = cumsumFrom a l := by
  induction l with
  | nil => intro m a _ _; rfl
  | cons p ps ih =>
    intro m a hnn hma
    rw [cumsumFrom, runMaxFrom]
    have hp : 0 ≤ p := hnn p (List.mem_cons_self _ _)
    have hle : m ≤ a + p := by linarith
    rw [qmax, if_pos hle]
    rw [ih (a + p) (a + p) (fun q hq => hnn q (List.mem_cons_of_mem _ hq))
      (le_refl _)]

theorem zipWith_sub_self (c : List ℚ) :
    List.zipWith (fun a b => a - b) c c = c.map (fun _ => (0 : ℚ)) := by
  induction c with
  | nil => rfl
  | cons x t ih => simp [ih]

theorem foldl_qmin_zeros (t : List ℚ) :
    ((t.map (fun _ => (0 : ℚ))).foldl qmin 0) = 0 := by
  induction t with
  | nil => rfl
  | cons x t ih => simpa [qmin] using ih

theorem minD_zeros (c : List ℚ) : minD (c.map (fun _ => (0 : ℚ))) = 0 := by
  cases c with
  | nil => rfl
  | cons x t => simpa [minD] using foldl_qmin_zeros t

theorem maxDrawdown_of_nonneg (l : List ℚ) (h : ∀ p ∈ l, 0 ≤ p) :
    calculateMaxDrawdown l = 0 := by
  simp only [calculateMaxDrawdown]
  have hrm : runningMax (cumsum l) = cumsum l := by
    cases l with
    | nil => rfl
    | cons p ps =>
      show (0 + p) :: runMaxFrom (0 + p) (cumsumFrom (0 + p) ps) =
        (0 + p) :: cumsumFrom (0 + p) ps
      rw [runMaxFrom_cumsumFrom ps (0 + p) (0 + p)
        (fun q hq => h q (List.mem_cons_of_mem _ hq)) (le_refl _)]
  rw [hrm, zipWith_sub_self, minD_zeros]
  simp

/-! Claims C3 and C4: maximum drawdown. -/

/-- C3: for every non-empty price list, _calculate_max_drawdown returns the
absolute value of the most negative entry of the reference series
(cumulative sum of prices minus its running maximum, written here directly
per index as specSeries), or 0 when no entry of that series is negative —
and on the spec example [10, 20, 5, 30] the result is 0. -/
theorem maxDrawdown_spec :
    (∀ l : List ℚ, l ≠ [] → calculateMaxDrawdown l = specMaxDrawdown l) ∧
    calculateMaxDrawdown [10, 20, 5, 30] = 0 := by
  constructor
  · intro l hl
    simp only [calculateMaxDrawdown, specMaxDrawdown]
    rw [drawdown_series_eq]
    have hne : specSeries l ≠ [] := by
      unfold specSeries
      simp only [ne_eq, List.map_eq_nil_iff, List.range_eq_nil,
        List.length_eq_zero]
      exact hl
    by_cases hm : minD (specSeries l) < 0
    · rw [if_pos hm, if_pos ((minD_neg_iff _ hne).mpr hm), qabs_eq]
    · rw [if_neg hm, if_neg (fun hc => hm ((minD_neg_iff _ hne).mp hc))]
  · exact maxDrawdown_of_nonneg [10, 20, 5, 30] (by decide)

/-- C3 witness: the series characterisation applied at the concrete price
list [3, -5, 2]. -/
theorem maxDrawdown_spec_witness :
    calculateMaxDrawdown [3, -5, 2] = specMaxDrawdown [3, -5, 2] :=
  maxDrawdown_spec.1 [3, -5, 2] (by decide)

/-- C4: the cumulative sum of a non-empty list of non-negative prices is
non-decreasing, so it coincides with its own running maximum, the drawdown
series is identically zero, and _calculate_max_drawdown is constantly 0 on
the valid (non-negative) price domain. -/
theorem maxDrawdown_nonneg_zero (l : List ℚ) (_hne : l ≠ [])
    (h : ∀ p ∈ l, 0 ≤ p) : calculateMaxDrawdown l = 0 :=
  maxDrawdown_of_nonneg l h

/-- C4 witness: the spec's decreasing example [30, 10, 5, 2] also yields 0. -/
theorem maxDrawdown_nonneg_zero_witness :
    calculateMaxDrawdown [30, 10, 5, 2] = 0 :=
  maxDrawdown_nonneg_zero [30, 10, 5, 2] (by decide) (by decide)

/-! Bridging the squared-variance encoding back to standard deviations:
np.std l = Real.sqrt (popVar l), so every threshold comparison of the
source squares to a rational comparison. -/

theorem popVar_nonneg (l : List ℚ) : 0 ≤ popVar l := by
  unfold popVar
  apply div_nonneg
  · apply List.sum_nonneg
    intro x hx
    obtain ⟨y, _, rfl⟩ := List.mem_map.mp hx
    exact sq_nonneg _
  · exact_mod_cast Nat.zero_le _

theorem sqrt_cast_lt (V c : ℚ) (hc : 0 < c) :
    Real.sqrt (V : ℝ) < (c : ℝ) ↔ V < c ^ 2 := by
  rw [Real.sqrt_lt' (by exact_mod_cast hc)]
  norm_cast

theorem cast_le_sqrt (V c : ℚ) (hV : 0 ≤ V) (hc : 0 ≤ c) :
    (c : ℝ) ≤ Real.sqrt (V : ℝ) ↔ c ^ 2 ≤ V := by
  rw [Real.le_sqrt (by exact_mod_cast hc) (by exact_mod_cast hV)]
  norm_cast

theorem sqrt_cast_le (V c : ℚ) :
    Real.sqrt (V : ℝ) ≤ (c : ℝ) ↔ 0 ≤ c ∧ V ≤ c ^ 2 := by
  rw [Real.sqrt_le_iff]
  constructor
  · rintro ⟨h1, h2⟩
    exact ⟨by exact_mod_cast h1, by exact_mod_cast h2⟩
  · rintro ⟨h1, h2⟩
    exact ⟨by exact_mod_cast h1, by exact_mod_cast h2⟩

theorem cast_lt_sqrt (V c : ℚ) : (c : ℝ) < Real.sqrt (V : ℝ) ↔
    c < 0 ∨ c ^ 2 < V := by
  rcases lt_or_le c 0 with hc | hc
  · refine iff_of_true ?_ (Or.inl hc)
    calc (c : ℝ) < 0 := by exact_mod_cast hc
      _ ≤ Real.sqrt (V : ℝ) := Real.sqrt_nonneg _
  · rw [Real.lt_sqrt (by exact_mod_cast hc)]
    constructor
    · intro h
      exact Or.inr (by exact_mod_cast h)
    · rintro (h | h)
      · exact absurd h (not_lt.mpr hc)
      · exact_mod_cast h

theorem classifyVol_low_iff (v : ℚ) : classifyVol v = "Low" ↔ v < 4 := by
  unfold classifyVol
  split_ifs with h1 h2
  · exact iff_of_true rfl h1
  · exact iff_of_false (by decide) h1
  · exact iff_of_false (by decide) h1

theorem classifyVol_medium_iff (v : ℚ) :
    classifyVol v = "Medium" ↔ 4 ≤ v ∧ v < 25 := by
  unfold classifyVol
  split_ifs with h1 h2
  · exact iff_of_false (by decide) (fun hc => absurd h1 (not_lt.mpr hc.1))
  · exact iff_of_true rfl ⟨not_lt.mp h1, h2⟩
  · exact iff_of_false (by decide) (fun hc => absurd hc.2 h2)

theorem classifyVol_high_iff (v : ℚ) : classifyVol v = "High" ↔ 25 ≤ v := by
  unfold classifyVol
  split_ifs with h1 h2
  · exact iff_of_false (by decide)
      (fun hc => absurd h1 (not_lt.mpr (le_trans (by norm_num) hc)))
  · exact iff_of_false (by decide) (fun hc => absurd h2 (not_lt.mpr hc))
  · exact iff_of_true rfl (not_lt.mp h2)

theorem classify_level_iffs (V : ℚ) (hV : 0 ≤ V) :
    (classifyVol V = "Low" ↔ Real.sqrt (V : ℝ) < 2) ∧
    (classifyVol V = "Medium" ↔
      2 ≤ Real.sqrt (V : ℝ) ∧ Real.sqrt (V : ℝ) < 5) ∧
    (classifyVol V = "High" ↔ 5 ≤ Real.sqrt (V : ℝ)) := by
  have c2 : ((2 : ℝ)) = ((2 : ℚ) : ℝ) := by norm_num
  have c5 : ((5 : ℝ)) = ((5 : ℚ) : ℝ) := by norm_num
  refine ⟨?_, ?_, ?_⟩
  · rw [classifyVol_low_iff, c2, sqrt_cast_lt V 2 (by norm_num)]
    norm_num
  · rw [classifyVol_medium_iff, c2, c5, sqrt_cast_lt V 5 (by norm_num),
      cast_le_sqrt V 2 hV (by norm_num)]
    norm_num
  · rw [classifyVol_high_iff, c5, cast_le_sqrt V 5 hV (by norm_num)]
    norm_num

/-! Claim C5: volatility classification and the InsufficientData guard. -/

/-- C5: calculate_volatility returns the error marker whenever fewer than 2
observations survive the daysBack window; otherwise it returns the
population variance of the consecutive percentage returns of the windowed
prices, classified Low exactly when the standard deviation (the square root
of that variance) is below 2, Medium exactly when it is at least 2 and
below 5 (so a standard deviation of exactly 2 is Medium), and High exactly
when it is at least 5 (so exactly 5 is High). -/
theorem volatility_spec (db : DB) (name : String) (now daysBack : Int) :
    (((get_price_history db name none).filter
        (fun r => now - daysBack ≤ r.1)).length < 2 →
      calculate_volatility db name now daysBack = none) ∧
    (2 ≤ ((get_price_history db name none).filter
        (fun r => now - daysBack ≤ r.1)).length →
      (calculate_volatility db name now daysBack).isSome = true) ∧
    (∀ out, calculate_volatility db name now daysBack = some out →
      out.variance = popVar (pctReturns
        (((get_price_history db name none).filter
          (fun r => now - daysBack ≤ r.1)).map (fun r => r.2))) ∧
      (out.level = "Low" ↔ Real.sqrt (out.variance : ℝ) < 2) ∧
      (out.level = "Medium" ↔
        2 ≤ Real.sqrt (out.variance : ℝ) ∧ Real.sqrt (out.variance : ℝ) < 5) ∧
      (out.level = "High" ↔ 5 ≤ Real.sqrt (out.variance : ℝ))) := by
  refine ⟨?_, ?_, ?_⟩
  · intro hlen
    simp only [calculate_volatility]
    by_cases hdf : get_price_history db name none = []
    · rw [if_pos hdf]
    · rw [if_neg hdf, if_pos hlen]
  · intro hlen
    simp only [calculate_volatility]
    have hdf : ¬ get_price_history db name none = [] := by
      intro hc
      rw [hc] at hlen
      simp at hlen
    rw [if_neg hdf, if_neg (by omega)]
    rfl
  · intro out hout
    simp only [calculate_volatility] at hout
    by_cases hdf : get_price_history db name none = []
    · rw [if_pos hdf] at hout
      exact absurd hout (by simp)
    · rw [if_neg hdf] at hout
      by_cases hlen : ((get_price_history db name none).filter
          (fun r => now - daysBack ≤ r.1)).length < 2
      · rw [if_pos hlen] at hout
        exact absurd hout (by simp)
      · rw [if_neg hlen] at hout
        have hrec := Option.some.inj hout
        subst hrec
        refine ⟨rfl, ?_⟩
        exact classify_level_iffs _ (popVar_nonneg _)

/-- C5 witness: the InsufficientData branch at the fresh database (0
observations in any window). -/
theorem volatility_spec_witness :
    calculate_volatility emptyDB "Widget" 100 30 = none :=
  (volatility_spec emptyDB "Widget" 100 30).1 (by decide)

/-! Claim C8: prediction guard, trend sign and confidence banding. -/

theorem classifyConfidence_high_iff (V c : ℚ) :
    classifyConfidence V c = "high" ↔ 0 ≤ c ∧ V ≤ 1 / 400 * c ^ 2 := by
  unfold classifyConfidence
  split_ifs with h1 h2 h3
  · exact iff_of_false (by decide) (fun hc => absurd hc.1 (not_le.mpr h1))
  · exact iff_of_false (by decide)
      (fun hc => absurd h2 (not_lt.mpr (le_trans hc.2 (by nlinarith [sq_nonneg c]))))
  · exact iff_of_false (by decide) (fun hc => absurd h3 (not_lt.mpr hc.2))
  · exact iff_of_true rfl ⟨not_lt.mp h1, not_lt.mp h3⟩

theorem classifyConfidence_medium_iff (V c : ℚ) :
    classifyConfidence V c = "medium" ↔
      0 ≤ c ∧ 1 / 400 * c ^ 2 < V ∧ V ≤ 1 / 100 * c ^ 2 := by
  unfold classifyConfidence
  split_ifs with h1 h2 h3
  · exact iff_of_false (by decide) (fun hc => absurd hc.1 (not_le.mpr h1))
  · exact iff_of_false (by decide) (fun hc => absurd h2 (not_lt.mpr hc.2.2))
  · exact iff_of_true rfl ⟨not_lt.mp h1, h3, not_lt.mp h2⟩
  · exact iff_of_false (by decide) (fun hc => absurd hc.2.1 h3)

theorem classifyConfidence_low_iff (V c : ℚ) :
    classifyConfidence V c = "low" ↔ c < 0 ∨ 1 / 100 * c ^ 2 < V := by
  unfold classifyConfidence
  split_ifs with h1 h2 h3
  · exact iff_of_true rfl (Or.inl h1)
  · exact iff_of_true rfl (Or.inr h2)
  · exact iff_of_false (by decide)
      (fun hc => hc.elim (fun h => absurd h h1) (fun h => absurd h h2))
  · exact iff_of_false (by decide)
      (fun hc => hc.elim (fun h => absurd h h1) (fun h => absurd h h2))

theorem classify_confidence_iffs (V c : ℚ) :
    (classifyConfidence V c = "high" ↔
      Real.sqrt (V : ℝ) ≤ 5 / 100 * (c : ℝ)) ∧
    (classifyConfidence V c = "medium" ↔
      5 / 100 * (c : ℝ) < Real.sqrt (V : ℝ) ∧
        Real.sqrt (V : ℝ) ≤ 10 / 100 * (c : ℝ)) ∧
    (classifyConfidence V c = "low" ↔
      10 / 100 * (c : ℝ) < Real.sqrt (V : ℝ)) := by
  have e1 : (5 / 100 * (c : ℝ)) = ((5 / 100 * c : ℚ) : ℝ) := by push_cast; ring
  have e2 : (10 / 100 * (c : ℝ)) = ((10 / 100 * c : ℚ) : ℝ) := by push_cast; ring
  have s1 : ((5 : ℚ) / 100 * c) ^ 2 = 1 / 400 * c ^ 2 := by ring
  have s2 : ((10 : ℚ) / 100 * c) ^ 2 = 1 / 100 * c ^ 2 := by ring
  refine ⟨?_, ?_, ?_⟩
  · rw [classifyConfidence_high_iff, e1, sqrt_cast_le V (5 / 100 * c), s1]
    constructor
    · rintro ⟨h1, h2⟩
      exact ⟨by linarith, h2⟩
    · rintro ⟨h1, h2⟩
      exact ⟨by linarith, h2⟩
  · rw [classifyConfidence_medium_iff, e1, e2, sqrt_cast_le V (10 / 100 * c),
      cast_lt_sqrt V (5 / 100 * c), s1, s2]
    constructor
    · rintro ⟨h1, h2, h3⟩
      exact ⟨Or.inr h2, by linarith, h3⟩
    · rintro ⟨hor, h1, h2⟩
      have hc : 0 ≤ c := by linarith
      rcases hor with h | h
      · exact absurd h (not_lt.mpr (by linarith))
      · exact ⟨hc, h, h2⟩
  · rw [classifyConfidence_low_iff, e2, cast_lt_sqrt V (10 / 100 * c), s2]
    constructor
    · rintro (h | h)
      · exact Or.inl (by linarith)
      · exact Or.inr h
    · rintro (h | h)
      · exact Or.inl (by linarith)
      · exact Or.inr h

/-- C8: predict_price returns the error marker for every product with fewer
than 10 observations; with 10 or more it returns the slope of the degree-1
ordinary-least-squares fit of price against observation index, reports trend
"increasing" exactly when that slope is strictly positive (else
"decreasing"), carries the squared standard deviation of the last
min(30, n) prices and the current (last) price, and reports confidence
"high" exactly when that standard deviation is at most 5 percent of the
current price, "medium" exactly when it is above 5 percent and at most 10
percent, and "low" exactly when it is above 10 percent. -/
theorem predict_spec (db : DB) (name : String) :
    ((get_price_history db name none).length < 10 →
      predict_price db name = none) ∧
    (10 ≤ (get_price_history db name none).length →
      (predict_price db name).isSome = true) ∧
    (∀ out, predict_price db name = some out →
      out.slope =
        lstsqSlope ((get_price_history db name none).map (fun r => r.2)) ∧
      (out.trend = "increasing" ↔ 0 < out.slope) ∧
      (out.trend = "decreasing" ↔ ¬ 0 < out.slope) ∧
      out.volatilitySq = popVar
        ((((get_price_history db name none).map (fun r => r.2))).drop
          ((((get_price_history db name none).map (fun r => r.2))).length -
            min 30 (((get_price_history db name none).map (fun r => r.2))).length)) ∧
      out.currentPrice =
        (((get_price_history db name none).map (fun r => r.2))).getLastD 0 ∧
      (out.confidence = "high" ↔
        Real.sqrt (out.volatilitySq : ℝ) ≤ 5 / 100 * (out.currentPrice : ℝ)) ∧
      (out.confidence = "medium" ↔
        5 / 100 * (out.currentPrice : ℝ) < Real.sqrt (out.volatilitySq : ℝ) ∧
          Real.sqrt (out.volatilitySq : ℝ) ≤ 10 / 100 * (out.currentPrice : ℝ)) ∧
      (out.confidence = "low" ↔
        10 / 100 * (out.currentPrice : ℝ) < Real.sqrt (out.volatilitySq : ℝ))) := by
  refine ⟨?_, ?_, ?_⟩
  · intro hlen
    simp only [predict_price]
    by_cases hdf : get_price_history db name none = []
    · rw [if_pos hdf]
    · rw [if_neg hdf, if_pos hlen]
  · intro hlen
    simp only [predict_price]
    have hdf : ¬ get_price_history db name none = [] := by
      intro hc
      rw [hc] at hlen
      simp at hlen
    rw [if_neg hdf, if_neg (by omega)]
    rfl
  · intro out hout
    simp only [predict_price] at hout
    by_cases hdf : get_price_history db name none = []
    · rw [if_pos hdf] at hout
      exact absurd hout (by simp)
    · rw [if_neg hdf] at hout
      by_cases hlen : (get_price_history db name none).length < 10
      · rw [if_pos hlen] at hout
        exact absurd hout (by simp)
      · rw [if_neg hlen] at hout
        have hrec := Option.some.inj hout
        subst hrec
        dsimp only
        refine ⟨rfl, ?_, ?_, rfl, rfl, ?_⟩
        · by_cases hs :
            0 < lstsqSlope ((get_price_history db name none).map (fun r => r.2))
          · rw [if_pos hs]
            exact iff_of_true rfl hs
          · rw [if_neg hs]
            exact iff_of_false (by decide) hs
        · by_cases hs :
            0 < lstsqSlope ((get_price_history db name none).map (fun r => r.2))
          · rw [if_pos hs]
            exact iff_of_false (by decide) (fun hc => hc hs)
          · rw [if_neg hs]
            exact iff_of_true rfl hs
        · exact classify_confidence_iffs _ _

/-- C8 witness: the InsufficientData branch at the fresh database (0
observations, below the 10-point minimum). -/
theorem predict_spec_witness : predict_price emptyDB "Widget" = none :=
  (predict_spec emptyDB "Widget").1 (by decide)

/-! Claim C9: price-drop events, window restriction and sort order. -/

/-- C9 counterexample: with two observations recorded at times 1 and 2 and a
window cutoff of 70 (now 100, daysBack 30), no observation lies inside the
daysBack window — yet get_price_drops emits an event, because the source
falls back to the full history when the window filter is empty; the claim
predicts no event for a window containing no consecutive pair. -/
theorem priceDrops_window_cex :
    ((get_price_history dbW2 "Widget" none).filter
      (fun r => (100 : Int) - 30 ≤ r.1)) = [] ∧
    get_price_drops dbW2 "Widget" 100 30 ≠ [] := by
  constructor <;> decide

/-- C9 (amended): for every product with at least 2 observations, whenever
at least one observation lies inside the daysBack window, get_price_drops
returns exactly one event per consecutive pair of the window-restricted
observations whose second price is strictly below the first (as a multiset,
stated by permutation), sorted in descending order of absolute drop amount
— not chronologically; when no observation lies inside the window the
source instead falls back to the full history. -/
theorem priceDrops_spec (db : DB) (name : String) (now daysBack : Int)
    (h2 : 2 ≤ (get_price_history db name none).length)
    (hne : (get_price_history db name none).filter
      (fun r => now - daysBack ≤ r.1) ≠ []) :
    (get_price_drops db name now daysBack).Perm
      (dropEvents ((get_price_history db name none).filter
        (fun r => now - daysBack ≤ r.1))) ∧
    List.Pairwise (fun a b => b.dropAmount ≤ a.dropAmount)
      (get_price_drops db name now daysBack) := by
  have hlt : ¬ (get_price_history db name none).length < 2 := by omega
  constructor
  · simp only [get_price_drops]
    rw [if_neg hlt, if_neg hne]
    exact List.perm_insertionSort dropGE _
  · simp only [get_price_drops]
    rw [if_neg hlt, if_neg hne]
    exact List.sorted_insertionSort dropGE _

/-- C9 witness: the permutation and descending-sort conclusions at a
concrete database whose two observations both lie inside the window. -/
theorem priceDrops_spec_witness :
    (get_price_drops dbW3 "Widget" 100 30).Perm
      (dropEvents ((get_price_history dbW3 "Widget" none).filter
        (fun r => (100 : Int) - 30 ≤ r.1))) ∧
    List.Pairwise (fun a b => b.dropAmount ≤ a.dropAmount)
      (get_price_drops dbW3 "Widget" 100 30) :=
  priceDrops_spec dbW3 "Widget" 100 30 (by decide) (by decide)

end WebScraper
